import Mathlib

/-!
# spaths: the OpenMP capability probe

Verification development for `src/openmp_installed.cpp`.

The translation unit consists of a preprocessor conditional that defines the
object-like macro `omp_installed` as the literal `true` or `false`, depending on
whether the feature macro `_OPENMP` is defined when the file is compiled, and of
the exported function `bool openmp_installed()` whose body is
`return omp_installed;`.

The only input of the program is therefore the build configuration.  It is made
an explicit parameter here, so that both builds are covered by one development.
-/

namespace Spaths

/-! ## Embedding of the source -/

/-- Build configuration of the translation unit: the field records whether the
feature macro `_OPENMP` is defined when `openmp_installed.cpp` is compiled. -/
structure BuildConfig where
  _OPENMP : Bool
  deriving DecidableEq, Repr

/-- Lines 4-8 of `openmp_installed.cpp`:
`#ifdef _OPENMP` / `#define omp_installed true` / `#else` /
`#define omp_installed false` / `#endif`.
The value the macro `omp_installed` expands to in a given build. -/
def omp_installed (cfg : BuildConfig) : Bool :=
  if cfg._OPENMP then
    true
  else
    false

/-- Lines 12-14 of `openmp_installed.cpp`:
`bool openmp_installed() { return omp_installed; }`.
The function has no parameter; the build configuration is the only thing its
value can depend on. -/
def openmp_installed (cfg : BuildConfig) : Bool :=
  omp_installed cfg

/-- The call `openmp_installed()` in explicit state-passing style.  A call starts
in a program state `s : σ` and either returns a value together with the state it
ends in, or throws an exception `e : ε`.  The body is the single statement
`return omp_installed;`: it reads and writes nothing and has no throwing
operation, so the call returns the macro's value and the state it was given. -/
def openmp_installed_call {σ ε : Type} (cfg : BuildConfig) (s : σ) :
    Except ε (Bool × σ) :=
  Except.ok (openmp_installed cfg, s)

/-- The program `n` successive calls of `openmp_installed()` within one build:
each call starts in the state the previous one ended in, an exception of any call
ends the sequence, and the results are collected in call order. -/
def successive_calls {σ ε : Type} (cfg : BuildConfig) : Nat → σ → Except ε (List Bool × σ)
  | 0, s => Except.ok ([], s)
  | n + 1, s =>
    match openmp_installed_call cfg s with
    | Except.error e => Except.error e
    | Except.ok (b, s1) =>
      match successive_calls cfg n s1 with
      | Except.error e => Except.error e
      | Except.ok (bs, s2) => Except.ok (b :: bs, s2)

/-! ## Reference behaviour named by the specification -/

/-- Specification side of the refinement: the constant probe returning the
literal `true`, leaving the state alone ("a constant-returning function"). -/
def spec_constant_true {σ ε : Type} (s : σ) : Except ε (Bool × σ) :=
  Except.ok (true, s)

/-- Specification side of the refinement: the constant probe returning the
literal `false`, leaving the state alone. -/
def spec_constant_false {σ ε : Type} (s : σ) : Except ε (Bool × σ) :=
  Except.ok (false, s)

/-! ## Helper lemmas -/

theorem omp_installed_eq (cfg : BuildConfig) : omp_installed cfg = cfg._OPENMP := by
  cases cfg with
  | mk b => cases b <;> rfl

theorem call_eq {σ ε : Type} (cfg : BuildConfig) (s : σ) :
    (openmp_installed_call cfg s : Except ε (Bool × σ)) = Except.ok (cfg._OPENMP, s) := by
  simp [openmp_installed_call, openmp_installed, omp_installed_eq]

theorem successive_calls_eq {σ ε : Type} (cfg : BuildConfig) (n : Nat) (s : σ) :
    (successive_calls cfg n s : Except ε (List Bool × σ))
      = Except.ok (List.replicate n cfg._OPENMP, s) := by
  induction n generalizing s with
  | zero => rfl
  | succ k ih =>
    simp only [successive_calls, call_eq, ih, List.replicate_succ]

/-! ## Claims -/

/-- C1: in every build configuration, `openmp_installed()` returns exactly the
flag saying whether `_OPENMP` was defined at compile time; in particular it
returns `true` in the build with the macro and `false` in the build without. -/
theorem openmp_installed_returns_flag (cfg : BuildConfig) :
    openmp_installed cfg = cfg._OPENMP
      ∧ openmp_installed { _OPENMP := true } = true
      ∧ openmp_installed { _OPENMP := false } = false :=
  ⟨omp_installed_eq cfg, rfl, rfl⟩

/-- C2: within one build, the first call of `openmp_installed()` returns some
boolean `first`, and any number `n` of successive calls returns `n` results that
are all equal to `first`. -/
theorem successive_calls_all_equal_first {σ ε : Type} (cfg : BuildConfig) (n : Nat) (s : σ) :
    ∃ first : Bool, ∃ s1 : σ,
      (openmp_installed_call cfg s : Except ε (Bool × σ)) = Except.ok (first, s1)
        ∧ (successive_calls cfg n s : Except ε (List Bool × σ))
            = Except.ok (List.replicate n first, s1) :=
  ⟨cfg._OPENMP, s, call_eq cfg s, successive_calls_eq cfg n s⟩

/-- C3: `openmp_installed()` has no failure mode.  In every build and from every
start state the call returns a value, that value is `true` or `false`, the call
never ends in an exception, and the value returned is the same whichever state
the call is started in. -/
theorem openmp_installed_never_fails {σ ε : Type} (cfg : BuildConfig) (s : σ) :
    ∃ b : Bool,
      (b = true ∨ b = false)
        ∧ (∃ s1 : σ, (openmp_installed_call cfg s : Except ε (Bool × σ)) = Except.ok (b, s1))
        ∧ (∀ e : ε, (openmp_installed_call cfg s : Except ε (Bool × σ)) ≠ Except.error e)
        ∧ (∀ t : σ, ∃ t1 : σ,
            (openmp_installed_call cfg t : Except ε (Bool × σ)) = Except.ok (b, t1)) := by
  refine ⟨cfg._OPENMP, ?_, ⟨s, call_eq cfg s⟩, ?_, fun t => ⟨t, call_eq cfg t⟩⟩
  · cases cfg._OPENMP <;> simp
  · intro e h
    rw [call_eq] at h
    cases h

/-- C4: `openmp_installed()` has no side effects.  The state a call ends in is the
state it started in, so every observation of the state is unchanged, and the
boolean returned does not depend on the start state. -/
theorem openmp_installed_no_side_effects {σ ε : Type} (cfg : BuildConfig) (s t : σ) :
    ∃ b : Bool,
      (openmp_installed_call cfg s : Except ε (Bool × σ)) = Except.ok (b, s)
        ∧ (openmp_installed_call cfg t : Except ε (Bool × σ)) = Except.ok (b, t) :=
  ⟨cfg._OPENMP, call_eq cfg s, call_eq cfg t⟩

/-- C7: once the build configuration is fixed the function is a constant
function: in the build with `_OPENMP` it is the constant probe returning `true`,
in the build without it the constant probe returning `false`, and every build is
one of these two. -/
theorem openmp_installed_refines_constant {σ ε : Type} (cfg : BuildConfig) :
    (cfg = { _OPENMP := true } ∨ cfg = { _OPENMP := false })
      ∧ (openmp_installed_call { _OPENMP := true } : σ → Except ε (Bool × σ))
          = spec_constant_true
      ∧ (openmp_installed_call { _OPENMP := false } : σ → Except ε (Bool × σ))
          = spec_constant_false
      ∧ (openmp_installed_call cfg : σ → Except ε (Bool × σ))
          = (if cfg._OPENMP then spec_constant_true else spec_constant_false) := by
  refine ⟨?_, rfl, rfl, ?_⟩
  · cases cfg with
    | mk b => cases b <;> simp
  · cases cfg with
    | mk b => cases b <;> rfl

end Spaths
